import Mathlib

/-!
Shallow embedding of `src/collect_data.py` (SLT video data collection tool).

The interactive main loop is modelled as a step function on a `Config`
(session state + a file-system model).  Each loop iteration receives an
`Input`: the captured camera frame (already flipped, i.e. the `raw` copy
taken at line 151 of the source), the hand-landmark detector results (used
only for drawing), the key reported by `waitKey`, and the current time.

Frame contents and detector outputs are modelled opaquely as natural
numbers: the program never inspects them, it only copies them around.
File paths are (directory, name) pairs relative to `DATA_DIR`; every file
the program touches lives in `DATA_DIR/{label}/`.
-/

namespace SLT

/-- Raw camera frame content, opaque (the program only copies frames). -/
abbrev Frame := Nat

/-- One hand-landmark set returned by the detector, opaque (only drawn). -/
abbrev Detection := Nat

/-- A path `DATA_DIR/dir/name`. -/
structure FsPath where
  dir : String
  name : String
deriving DecidableEq, Repr

/-- A file on disk: its path and the frames encoded in it. -/
structure FileEntry where
  path : FsPath
  content : List Frame
deriving DecidableEq, Repr

/-- A displayed image: the base frame plus what has been drawn onto it.
`landmarks` are the hand skeletons drawn by `mp_draw.draw_landmarks`;
`uiDrawn` records that status bars / prompts / indicators were rendered. -/
structure Image where
  base : Frame
  landmarks : List Detection
  uiDrawn : Bool
deriving DecidableEq, Repr

/-- The five states of the session state machine (lines 34-38). -/
inductive Mode where
  | inputLabel
  | inputCount
  | idle
  | recording
  | review
deriving DecidableEq, Repr

/-- Console messages printed by the loop, with the data each f-string
interpolates (lines 254, 264, 284, 292, 295, 297, 304, 324, 328, 338). -/
inductive Event where
  | msgFoundExisting (count : Nat) (lab : String) (nextIdx : Int)
  | msgRecordingTarget (lab : String) (saved target : Int)
  | msgRecStarted (lab : String) (idx : Int)
  | msgUndone (name : String) (saved target : Int)
  | msgFileAlreadyGone (name : String)
  | msgNothingToUndo
  | msgRecStopped (nFrames : Nat)
  | msgSaved (name : String) (saved target : Int)
  | msgAllDone (target : Int) (lab : String)
  | msgClipDiscarded
deriving DecidableEq, Repr

/-- The mutable state of `main` (lines 132-141) plus the file system. -/
structure Config where
  mode : Mode
  lab : String
  targetCount : Int
  savedCount : Int
  textBuf : String
  savedFiles : List FsPath
  rawFrames : List Frame
  recStart : Nat
  reviewFrame : Option Image
  disk : List FileEntry
deriving DecidableEq, Repr

/-- One loop iteration's input: the flipped camera frame, the detector
results on it, the detector results of the Review re-detection (line 208,
display only), the key from `waitKey`, and the wall-clock time. -/
structure Input where
  cam : Frame
  dets : List Detection
  dets2 : List Detection
  key : Nat
  now : Nat
deriving DecidableEq, Repr

/-- Outcome of one loop iteration: continue with new state and printed
messages, break out of the loop (key Q, line 232), or raise an uncaught
exception. -/
inductive StepResult where
  | next (c : Config) (evs : List Event)
  | quit (c : Config)
  | crash
deriving DecidableEq, Repr

-- ── File-system model ─────────────────────────────────────────

/-- Does a file with this path exist (`Path.exists`)? -/
def fileExists (disk : List FileEntry) (p : FsPath) : Bool :=
  disk.any (fun e => e.path = p)

/-- Delete a file (`Path.unlink`). -/
def removeFile (disk : List FileEntry) (p : FsPath) : List FileEntry :=
  disk.filter (fun e => e.path ≠ p)

/-- Create or overwrite a file (`cv2.VideoWriter` writing all frames). -/
def writeFile (disk : List FileEntry) (p : FsPath) (content : List Frame) :
    List FileEntry :=
  removeFile disk p ++ [⟨p, content⟩]

/-- Content of the file at `p`, if it exists. -/
def readFile (disk : List FileEntry) (p : FsPath) : Option (List Frame) :=
  (disk.find? (fun e => e.path = p)).map (fun e => e.content)

/-- Names of the files in directory `d`. -/
def dirListing (disk : List FileEntry) (d : String) : List String :=
  (disk.filter (fun e => e.path.dir = d)).map (fun e => e.path.name)

-- ── String helpers mirroring Python semantics ─────────────────

/-- Python string comparison: lexicographic on code points. -/
def strLeChars : List Char → List Char → Bool
  | [], _ => true
  | _ :: _, [] => false
  | a :: as, b :: bs =>
    if a.toNat < b.toNat then true
    else if b.toNat < a.toNat then false
    else strLeChars as bs

/-- Python `a <= b` on strings. -/
def strLe (a b : String) : Bool :=
  strLeChars a.data b.data

/-- Insert into an already sorted list, after all elements `≤ x`
(keeps `sorted` stable, as Python's is). -/
def insertSorted (x : String) : List String → List String
  | [] => [x]
  | y :: ys => if strLe y x then y :: insertSorted x ys else x :: y :: ys

/-- Python `sorted` on strings: stable ascending sort. -/
def pySorted (l : List String) : List String :=
  l.foldl (fun acc x => insertSorted x acc) []

/-- Python `str.strip()` (the buffer only ever holds ASCII 33-126, so
stripping the four ASCII whitespace characters is exact here). -/
def pyStrip (s : String) : String :=
  ⟨((s.data.dropWhile Char.isWhitespace).reverse.dropWhile
      Char.isWhitespace).reverse⟩

/-- Python `str.isdigit` restricted to ASCII: nonempty and all digits. -/
def pyIsDigit (s : String) : Bool :=
  !s.data.isEmpty && s.data.all Char.isDigit

/-- Numeric value of an all-digit string, Python `int(s)` on the strings
the code guards with `isdigit`. -/
def digitsToNat (s : String) : Nat :=
  s.data.foldl (fun n c => n * 10 + (c.toNat - 48)) 0

/-- Python `Path.stem`: the name with its suffix removed; the suffix is
cut at the last dot only when that dot is not the first character. -/
def pyStem (name : String) : String :=
  let cs := name.data
  let dotIdxs := (cs.enum.filter (fun p => p.2 = '.')).map (fun p => p.1)
  match dotIdxs.getLast? with
  | none => name
  | some i => if 0 < i then ⟨cs.take i⟩ else name

/-- Python `s.split("_")[-1]`: the part after the last underscore, or
the whole string when there is none. -/
def lastUnderscorePart (s : String) : String :=
  ⟨(s.data.reverse.takeWhile (fun c => c ≠ '_')).reverse⟩

/-- Does `name` match the glob pattern `{lab}_*.mp4` (line 245)?
Equivalent to `name = lab ++ "_" ++ mid ++ ".mp4"` for some `mid`. -/
def globMatch (lab name : String) : Bool :=
  (lab.data ++ ['_']).isPrefixOf name.data &&
    ['.', 'm', 'p', '4'].isSuffixOf name.data &&
    lab.data.length + 5 ≤ name.data.length

/-- The numeric suffix the scan extracts from a matched file name:
`int(p.stem.split("_")[-1])`. -/
def suffixNum (name : String) : Nat :=
  digitsToNat (lastUnderscorePart (pyStem name))

/-- Does the file name carry a numeric suffix
(`p.stem.split("_")[-1].isdigit()`)? -/
def hasDigitSuffix (name : String) : Bool :=
  pyIsDigit (lastUnderscorePart (pyStem name))

/-- Decimal digits of a natural number; `fuel` bounds the recursion and
any `fuel ≥ n + 1` yields the digits of `n`. -/
def natToChars (fuel n : Nat) : List Char :=
  match fuel with
  | 0 => []
  | fuel + 1 =>
    if n < 10 then [Char.ofNat (48 + n)]
    else natToChars fuel (n / 10) ++ [Char.ofNat (48 + n % 10)]

/-- Python `str(i)` for integers. -/
def intToString (i : Int) : String :=
  match i with
  | Int.ofNat n => ⟨natToChars (n + 1) n⟩
  | Int.negSucc n => ⟨'-' :: natToChars (n + 2) (n + 1)⟩

-- ── The label-confirm resume scan (lines 243-256) ─────────────

/-- Scan the label's directory for existing `{lab}_*.mp4` clips and
compute the resumed `saved_count` and `saved_files`.  Returns `none` when
`existing` is nonempty but no matched file has a numeric suffix: then the
source's `max()` over an empty generator raises `ValueError`. -/
def scanLabel (disk : List FileEntry) (lab : String) :
    Option (Nat × List FsPath) :=
  let existing := pySorted ((dirListing disk lab).filter (globMatch lab))
  if existing.isEmpty then
    some (0, [])
  else
    let nums := (existing.filter hasDigitSuffix).map suffixNum
    match nums with
    | [] => none
    | _ :: _ => some (nums.foldl max 0, existing.map (fun n => ⟨lab, n⟩))

-- ── Key codes ─────────────────────────────────────────────────

def keyEnter : Nat := 13
def keySpace : Nat := 32
def keyBackspace : Nat := 8
def keyDelete : Nat := 127

-- ── One loop iteration ────────────────────────────────────────

/-- The state-dependent display-phase side effect: while Recording, the
raw (pre-overlay) copy of the frame is appended to the clip buffer
(line 193).  All other display work only draws on the local frame. -/
def phase1 (c : Config) (i : Input) : Config :=
  if c.mode = Mode.recording then
    { c with rawFrames := c.rawFrames ++ [i.cam] }
  else c

/-- The image shown by `cv2.imshow` this iteration: in Review the frozen
`review_frame` with landmarks re-drawn (lines 204-212), otherwise the
live frame with landmarks drawn (lines 156-159); UI chrome is rendered
in every mode. -/
def render (c : Config) (i : Input) : Image :=
  if c.mode = Mode.review then
    match c.reviewFrame with
    | some img => ⟨img.base, img.landmarks ++ i.dets2, true⟩
    | none => ⟨i.cam, i.dets, true⟩
  else
    ⟨i.cam, i.dets, true⟩

/-- Key handling (lines 230-338), applied after the display phase. -/
def handleKey (c : Config) (i : Input) : StepResult :=
  if i.key = 113 ∨ i.key = 81 then
    StepResult.quit c
  else if c.mode = Mode.inputLabel ∨ c.mode = Mode.inputCount then
    if i.key = keyEnter then
      if c.mode = Mode.inputLabel ∧ pyStrip c.textBuf ≠ "" then
        let lab := pyStrip c.textBuf
        match scanLabel c.disk lab with
        | none => StepResult.crash
        | some (n, files) =>
          StepResult.next
            { c with lab := lab, textBuf := "", savedCount := (n : Int),
                     savedFiles := files, mode := Mode.inputCount }
            (if files.isEmpty then []
             else [Event.msgFoundExisting files.length lab ((n : Int) + 1)])
      else if c.mode = Mode.inputCount ∧ pyIsDigit (pyStrip c.textBuf) then
        let t : Int := (digitsToNat (pyStrip c.textBuf) : Nat)
        let t := if t < 1 then 1 else t
        StepResult.next
          { c with targetCount := t, textBuf := "", mode := Mode.idle }
          [Event.msgRecordingTarget c.lab c.savedCount t]
      else
        StepResult.next c []
    else if i.key = keyBackspace ∨ i.key = keyDelete then
      StepResult.next { c with textBuf := String.mk c.textBuf.data.dropLast } []
    else if 32 ≤ i.key ∧ i.key < 127 ∧ i.key ≠ keySpace then
      let ch := Char.ofNat i.key
      if c.mode = Mode.inputCount then
        if ch.isDigit then
          StepResult.next { c with textBuf := String.mk (c.textBuf.data ++ [ch]) } []
        else
          StepResult.next c []
      else
        StepResult.next { c with textBuf := String.mk (c.textBuf.data ++ [ch]) } []
    else
      StepResult.next c []
  else if c.mode = Mode.idle then
    if i.key = keySpace then
      StepResult.next
        { c with rawFrames := [], recStart := i.now, mode := Mode.recording }
        [Event.msgRecStarted c.lab (c.savedCount + 1)]
    else if i.key = 117 ∨ i.key = 85 then
      match c.savedFiles.getLast? with
      | some last =>
        if fileExists c.disk last then
          StepResult.next
            { c with savedFiles := c.savedFiles.dropLast,
                     disk := removeFile c.disk last,
                     savedCount := c.savedCount - 1 }
            [Event.msgUndone last.name (c.savedCount - 1) c.targetCount]
        else
          StepResult.next
            { c with savedFiles := c.savedFiles.dropLast }
            [Event.msgFileAlreadyGone last.name]
      | none =>
        StepResult.next c [Event.msgNothingToUndo]
    else
      StepResult.next c []
  else if c.mode = Mode.recording then
    if i.key = keySpace then
      StepResult.next
        { c with mode := Mode.review,
                 reviewFrame := some ⟨i.cam, i.dets, true⟩ }
        [Event.msgRecStopped c.rawFrames.length]
    else
      StepResult.next c []
  else
    if i.key = 111 ∨ i.key = 79 then
      let sc := c.savedCount + 1
      let fname : FsPath := ⟨c.lab, c.lab ++ "_" ++ intToString sc ++ ".mp4"⟩
      let disk := writeFile c.disk fname c.rawFrames
      let c1 := { c with savedCount := sc, disk := disk,
                         savedFiles := c.savedFiles ++ [fname],
                         rawFrames := [], reviewFrame := none }
      if c.targetCount ≤ sc then
        StepResult.next { c1 with textBuf := "", mode := Mode.inputLabel }
          [Event.msgSaved fname.name sc c.targetCount,
           Event.msgAllDone c.targetCount c.lab]
      else
        StepResult.next { c1 with mode := Mode.idle }
          [Event.msgSaved fname.name sc c.targetCount]
    else if i.key = keySpace then
      StepResult.next
        { c with rawFrames := [], reviewFrame := none, mode := Mode.idle }
        [Event.msgClipDiscarded]
    else
      StepResult.next c []

/-- One full loop iteration: display phase, then key handling. -/
def step (c : Config) (i : Input) : StepResult :=
  handleKey (phase1 c i) i

/-- Configuration carried by a non-quit, non-crash step result. -/
def resultConfig : StepResult → Option Config
  | StepResult.next c _ => some c
  | StepResult.quit _ => none
  | StepResult.crash => none

/-- Events printed by a non-quit, non-crash step result. -/
def resultEvents : StepResult → Option (List Event)
  | StepResult.next _ evs => some evs
  | StepResult.quit _ => none
  | StepResult.crash => none

/-- The target count resulting from confirming the count buffer
(lines 259-261): its numeric value, clamped below by 1. -/
def clampedTarget (s : String) : Int :=
  if (digitsToNat (pyStrip s) : Int) < 1 then 1
  else (digitsToNat (pyStrip s) : Int)

/-- The session invariant claimed by the spec. -/
def countInv (c : Config) : Prop :=
  c.savedCount = (c.savedFiles.length : Int)

/-- The path the next save will write (lines 309-312, for a config about
to save from Review). -/
def savePath (c : Config) : FsPath :=
  ⟨c.lab, c.lab ++ "_" ++ intToString (c.savedCount + 1) ++ ".mp4"⟩

/-- A config with the stored review display removed: everything the
persistence path may legitimately depend on. -/
def stripDisplay (c : Config) : Config :=
  { c with reviewFrame := none }

/-- Two step results that agree on everything except the stored review
display: same control flow, same printed messages, same bookkeeping, and
in particular the same disk. -/
def sameObservable : StepResult → StepResult → Prop
  | StepResult.next c e, StepResult.next c' e' =>
    stripDisplay c = stripDisplay c' ∧ e = e'
  | StepResult.quit c, StepResult.quit c' => stripDisplay c = stripDisplay c'
  | StepResult.crash, StepResult.crash => True
  | _, _ => False

/-- Do the files `{lab}_1.mp4` … `{lab}_n.mp4` all exist in `lab`'s
directory? -/
def hasRun (disk : List FileEntry) (lab : String) (n : Nat) : Bool :=
  (List.range n).all (fun k =>
    fileExists disk ⟨lab, lab ++ "_" ++ intToString ((k : Nat) + 1) ++ ".mp4"⟩)

/-- The quantity named by the spec's words "the highest contiguous
numeric suffix found among existing `{L}_{n}.ext` files": the largest `n`
such that clips 1 through `n` all exist, or 0 if `{L}_1.mp4` is absent.
Stated from the spec, for comparison with the scan the code performs. -/
def highestContiguous (disk : List FileEntry) (lab : String) : Nat :=
  ((List.range (disk.length + 1)).filter (hasRun disk lab)).foldl max 0

-- ── Concrete sessions used as counterexamples and witnesses ───

/-- A fresh session about to confirm label "L" while clips 1 and 3 (but
not 2) already exist on disk. -/
def exC1 : Config :=
  { mode := Mode.inputLabel, lab := "", targetCount := 0, savedCount := 0,
    textBuf := "L", savedFiles := [], rawFrames := [], recStart := 0,
    reviewFrame := none,
    disk := [⟨⟨"L", "L_1.mp4"⟩, []⟩, ⟨⟨"L", "L_3.mp4"⟩, []⟩] }

/-- An idle session with one saved clip present on disk. -/
def exC1w : Config :=
  { mode := Mode.idle, lab := "L", targetCount := 4, savedCount := 1,
    textBuf := "", savedFiles := [⟨"L", "L_1.mp4"⟩], rawFrames := [],
    recStart := 0, reviewFrame := none,
    disk := [⟨⟨"L", "L_1.mp4"⟩, [6]⟩] }

/-- A fresh session about to confirm label "hello" while hello_1 and
hello_3 (but not hello_2) already exist on disk. -/
def exC2 : Config :=
  { mode := Mode.inputLabel, lab := "", targetCount := 0, savedCount := 0,
    textBuf := "hello", savedFiles := [], rawFrames := [], recStart := 0,
    reviewFrame := none,
    disk := [⟨⟨"hello", "hello_1.mp4"⟩, [1]⟩,
             ⟨⟨"hello", "hello_3.mp4"⟩, [3]⟩] }

/-- A fresh session about to confirm label "g" with clips g_1 and g_2 on
disk. -/
def exC2w : Config :=
  { mode := Mode.inputLabel, lab := "", targetCount := 0, savedCount := 0,
    textBuf := "g", savedFiles := [], rawFrames := [], recStart := 0,
    reviewFrame := none,
    disk := [⟨⟨"g", "g_1.mp4"⟩, []⟩, ⟨⟨"g", "g_2.mp4"⟩, []⟩] }

/-- An idle session that recorded one clip whose file has vanished from
disk. -/
def exC3 : Config :=
  { mode := Mode.idle, lab := "L", targetCount := 5, savedCount := 1,
    textBuf := "", savedFiles := [⟨"L", "L_1.mp4"⟩], rawFrames := [],
    recStart := 0, reviewFrame := none, disk := [] }

/-- A review session below its target count, about to save. -/
def exC4 : Config :=
  { mode := Mode.review, lab := "A", targetCount := 3, savedCount := 0,
    textBuf := "", savedFiles := [], rawFrames := [4, 5], recStart := 0,
    reviewFrame := some ⟨5, [], true⟩, disk := [] }

/-- A review session holding two pending frames, about to save. -/
def exC5 : Config :=
  { mode := Mode.review, lab := "B", targetCount := 5, savedCount := 0,
    textBuf := "", savedFiles := [], rawFrames := [7, 8], recStart := 0,
    reviewFrame := some ⟨8, [2], true⟩, disk := [] }

/-- A count-entry session whose buffer holds "0". -/
def exC6 : Config :=
  { mode := Mode.inputCount, lab := "sign", targetCount := 0,
    savedCount := 0, textBuf := "0", savedFiles := [], rawFrames := [],
    recStart := 0, reviewFrame := none, disk := [] }

/-- A label-entry session whose buffer holds "a". -/
def exC7 : Config :=
  { mode := Mode.inputLabel, lab := "", targetCount := 0, savedCount := 0,
    textBuf := "a", savedFiles := [], rawFrames := [], recStart := 0,
    reviewFrame := none, disk := [] }

/-- A review session with one saved clip and two pending frames. -/
def exC8 : Config :=
  { mode := Mode.review, lab := "hi", targetCount := 2, savedCount := 1,
    textBuf := "", savedFiles := [⟨"hi", "hi_1.mp4"⟩], rawFrames := [7, 8],
    recStart := 0, reviewFrame := some ⟨8, [3], true⟩,
    disk := [⟨⟨"hi", "hi_1.mp4"⟩, [5]⟩] }

/-- An idle session with nothing saved yet. -/
def exC9 : Config :=
  { mode := Mode.idle, lab := "w", targetCount := 3, savedCount := 0,
    textBuf := "", savedFiles := [], rawFrames := [], recStart := 0,
    reviewFrame := none, disk := [] }

/-- A review session whose recording stopped before any frame was
captured: the pending frame buffer is empty. -/
def exC10 : Config :=
  { mode := Mode.review, lab := "z", targetCount := 2, savedCount := 0,
    textBuf := "", savedFiles := [], rawFrames := [], recStart := 0,
    reviewFrame := some ⟨1, [], true⟩, disk := [] }

end SLT

namespace SLT

-- ── Helper lemmas ─────────────────────────────────────────────

theorem phase1_of_ne_recording {c : Config} (i : Input)
    (h : c.mode ≠ Mode.recording) : phase1 c i = c := by
  simp [phase1, h]

theorem fileExists_writeFile (d : List FileEntry) (p : FsPath)
    (cnt : List Frame) : fileExists (writeFile d p cnt) p = true := by
  simp [fileExists, writeFile]

theorem find?_eq_none_of_all_not {α : Type} (l : List α) (p : α → Bool)
    (h : ∀ x ∈ l, p x = false) : l.find? p = none := by
  induction l with
  | nil => rfl
  | cons a as ih =>
    have ha := h a (List.mem_cons_self a as)
    have has := ih (fun x hx => h x (List.mem_cons_of_mem a hx))
    simp [List.find?, ha, has]

theorem find?_append_none {α : Type} (l₁ l₂ : List α) (p : α → Bool)
    (h : l₁.find? p = none) : (l₁ ++ l₂).find? p = l₂.find? p := by
  induction l₁ with
  | nil => rfl
  | cons a as ih =>
    by_cases hp : p a = true
    · simp [List.find?, hp] at h
    · have hp' : p a = false := by
        cases hpa : p a
        · rfl
        · exact absurd hpa hp
      simp only [List.find?, hp'] at h
      simp only [List.cons_append, List.find?, hp']
      exact ih h

theorem readFile_writeFile (d : List FileEntry) (p : FsPath)
    (cnt : List Frame) : readFile (writeFile d p cnt) p = some cnt := by
  unfold readFile writeFile removeFile
  rw [find?_append_none]
  · simp [List.find?]
  · apply find?_eq_none_of_all_not
    intro e he
    have := (List.mem_filter.mp he).2
    simp at this
    simp [this]

end SLT

namespace SLT

-- ── List lemmas for the resume scan ───────────────────────────

theorem mem_insertSorted {x y : String} {l : List String} :
    y ∈ insertSorted x l ↔ y = x ∨ y ∈ l := by
  induction l with
  | nil => simp [insertSorted]
  | cons a as ih =>
    unfold insertSorted
    split
    · simp only [List.mem_cons, ih]
      tauto
    · simp only [List.mem_cons]

theorem mem_foldl_insertSorted (l acc : List String) (y : String) :
    y ∈ l.foldl (fun acc x => insertSorted x acc) acc ↔ y ∈ l ∨ y ∈ acc := by
  induction l generalizing acc with
  | nil => simp
  | cons a as ih =>
    simp only [List.foldl_cons, ih, mem_insertSorted, List.mem_cons]
    tauto

theorem mem_pySorted (l : List String) (y : String) :
    y ∈ pySorted l ↔ y ∈ l := by
  unfold pySorted
  rw [mem_foldl_insertSorted]
  simp

theorem pySorted_eq_nil {l : List String} (h : pySorted l = []) : l = [] := by
  cases l with
  | nil => rfl
  | cons a as =>
    have ha := (mem_pySorted (a :: as) a).mpr (by simp)
    rw [h] at ha
    simp at ha

theorem le_foldl_max (l : List Nat) (a : Nat) : a ≤ l.foldl max a := by
  induction l generalizing a with
  | nil => simp
  | cons x xs ih => exact le_trans (le_max_left a x) (ih (max a x))

theorem mem_le_foldl_max {l : List Nat} {x : Nat} (h : x ∈ l) (a : Nat) :
    x ≤ l.foldl max a := by
  induction l generalizing a with
  | nil => cases h
  | cons y ys ih =>
    rcases List.mem_cons.mp h with rfl | h2
    · exact le_trans (le_max_right a x) (le_foldl_max ys (max a x))
    · exact ih h2 (max a y)

theorem foldl_max_mem (l : List Nat) (a : Nat) :
    l.foldl max a = a ∨ l.foldl max a ∈ l := by
  induction l generalizing a with
  | nil => left; rfl
  | cons x xs ih =>
    simp only [List.foldl_cons]
    rcases ih (max a x) with h | h
    · rcases max_choice a x with h1 | h1
      · left; rw [h, h1]
      · right; rw [h, h1]; exact List.mem_cons_self x xs
    · right; exact List.mem_cons_of_mem x h

/-- The detector results feed only the stored review display: key
handling yields observably equal results under any change of detections. -/
theorem handleKey_dets (c : Config) (cam : Frame)
    (d1 d2 e1 e2 : List Detection) (k t : Nat) :
    sameObservable (handleKey c ⟨cam, d1, d2, k, t⟩)
      (handleKey c ⟨cam, e1, e2, k, t⟩) := by
  unfold handleKey
  dsimp only
  repeat' split
  all_goals simp [sameObservable, stripDisplay]

end SLT

namespace SLT

-- ── C1 ────────────────────────────────────────────────────────

/-- C1 fails as stated: confirming label "L" with clips L_1 and L_3 on
disk completes the transition with savedCount 3 but only 2 recorded
paths, although the invariant held beforehand. -/
theorem c1_counterexample :
    exC1.savedCount = (exC1.savedFiles.length : Int) ∧
    (resultConfig (step exC1 ⟨0, [], [], 13, 0⟩)).map
        (fun c => (c.savedCount, (c.savedFiles.length : Int))) =
      some (3, 2) ∧
    (3 : Int) ≠ 2 := by
  decide

/-- C1 (amended): savedCount = length(savedFilePaths) is preserved by
every completed transition except the label-confirm resume scan and an
undo whose target file is missing from disk. -/
theorem c1_inv_preserved (c : Config) (i : Input) (c' : Config)
    (evs : List Event) (hinv : countInv c)
    (hscan : ¬ (c.mode = Mode.inputLabel ∧ i.key = keyEnter ∧
                pyStrip c.textBuf ≠ ""))
    (hmiss : ∀ last, c.mode = Mode.idle → (i.key = 117 ∨ i.key = 85) →
        c.savedFiles.getLast? = some last → fileExists c.disk last = true)
    (hstep : step c i = StepResult.next c' evs) :
    countInv c' := by
  unfold countInv at hinv
  have hd1 : (phase1 c i).savedCount = c.savedCount := by
    unfold phase1; split <;> rfl
  have hd2 : (phase1 c i).savedFiles = c.savedFiles := by
    unfold phase1; split <;> rfl
  have hd3 : (phase1 c i).mode = c.mode := by
    unfold phase1; split <;> rfl
  have hd4 : (phase1 c i).textBuf = c.textBuf := by
    unfold phase1; split <;> rfl
  have hd5 : (phase1 c i).disk = c.disk := by
    unfold phase1; split <;> rfl
  unfold step at hstep
  set d := phase1 c i with hd
  clear_value d
  have hdinv : d.savedCount = (d.savedFiles.length : Int) := by
    rw [hd1, hd2]; exact hinv
  unfold handleKey at hstep
  repeat' split at hstep
  all_goals try (dsimp only at hstep)
  repeat' split at hstep
  all_goals try exact StepResult.noConfusion hstep
  all_goals try (injection hstep with hc he; subst hc)
  all_goals unfold countInv
  all_goals try dsimp only
  all_goals try exact hdinv
  next hkey hcond hx hn hfiles heq hemp =>
    exact absurd ⟨hd3 ▸ hcond.1, hkey, hd4 ▸ hcond.2⟩ hscan
  next hkey hcond hx hn hfiles heq hemp =>
    exact absurd ⟨hd3 ▸ hcond.1, hkey, hd4 ▸ hcond.2⟩ hscan
  next hx last heq hex =>
    have hne : d.savedFiles ≠ [] := by
      intro h0
      rw [h0] at heq
      simp at heq
    have hlen : 1 ≤ d.savedFiles.length := List.length_pos.mpr hne
    rw [List.length_dropLast]
    omega
  next hidle hnsp huk hx last heq hnex =>
    have hext := hmiss last (hd3 ▸ hidle) huk (hd2 ▸ heq)
    rw [← hd5] at hext
    exact absurd hext hnex
  next =>
    simp only [List.length_append, List.length_cons, List.length_nil]
    omega
  next =>
    simp only [List.length_append, List.length_cons, List.length_nil]
    omega

/-- C1 witness: the preserved invariant instantiated at a concrete idle
session receiving a key that changes nothing. -/
theorem c1_witness : countInv exC1w :=
  c1_inv_preserved exC1w ⟨0, [], [], 0, 0⟩ exC1w []
    (show exC1w.savedCount = (exC1w.savedFiles.length : Int) by decide)
    (by decide)
    (fun last _ h2 => absurd h2 (by decide))
    (by decide)

-- ── C2 ────────────────────────────────────────────────────────

/-- C2 fails as stated: with hello_1 and hello_3 on disk the highest
contiguous numeric suffix is 1, but the completed label-confirm
transition sets savedCount to 3, the maximum suffix. -/
theorem c2_counterexample :
    highestContiguous exC2.disk "hello" = 1 ∧
    (resultConfig (step exC2 ⟨0, [], [], 13, 0⟩)).map Config.savedCount =
      some 3 ∧
    (3 : Int) ≠ ((1 : Nat) : Int) := by
  decide

/-- C2 (amended): when every matched `{L}_*.mp4` file carries a numeric
suffix, the transition into CountEntry sets savedCount to the maximum
(not necessarily contiguous) numeric suffix among them, and to 0 when no
file matches. -/
theorem c2_resume_sets_max (c : Config) (i : Input)
    (hmode : c.mode = Mode.inputLabel) (hkey : i.key = keyEnter)
    (hne : pyStrip c.textBuf ≠ "")
    (hdig : ∀ n ∈ (dirListing c.disk (pyStrip c.textBuf)).filter
        (globMatch (pyStrip c.textBuf)), hasDigitSuffix n = true) :
    ∃ c' evs, step c i = StepResult.next c' evs ∧
      c'.mode = Mode.inputCount ∧ c'.lab = pyStrip c.textBuf ∧
      (∀ n ∈ (dirListing c.disk (pyStrip c.textBuf)).filter
          (globMatch (pyStrip c.textBuf)),
        (suffixNum n : Int) ≤ c'.savedCount) ∧
      ((dirListing c.disk (pyStrip c.textBuf)).filter
          (globMatch (pyStrip c.textBuf)) = [] → c'.savedCount = 0) ∧
      ((dirListing c.disk (pyStrip c.textBuf)).filter
          (globMatch (pyStrip c.textBuf)) ≠ [] →
        ∃ n ∈ (dirListing c.disk (pyStrip c.textBuf)).filter
            (globMatch (pyStrip c.textBuf)),
          (suffixNum n : Int) = c'.savedCount) := by
  have hp : phase1 c i = c := phase1_of_ne_recording i (by simp [hmode])
  set L := pyStrip c.textBuf with hL
  set matched := (dirListing c.disk L).filter (globMatch L) with hm
  cases hbs : pySorted matched with
  | nil =>
    have hmat : matched = [] := pySorted_eq_nil hbs
    have hscan : scanLabel c.disk L = some (0, []) := by
      unfold scanLabel
      rw [← hm, hbs]
      rfl
    refine ⟨{ c with lab := L, textBuf := "",
                     savedCount := ((0 : Nat) : Int),
                     savedFiles := [], mode := Mode.inputCount }, [],
            ?_, rfl, rfl, ?_, ?_, ?_⟩
    · simp [step, hp, handleKey, hmode, hkey, hne, hscan, keyEnter]
    · intro n hn
      rw [hmat] at hn
      cases hn
    · intro _
      rfl
    · intro hcon
      exact absurd hmat hcon
  | cons b bs =>
    have hfil : (b :: bs).filter hasDigitSuffix = b :: bs := by
      apply List.filter_eq_self.mpr
      intro n hn
      exact hdig n ((mem_pySorted matched n).mp (hbs ▸ hn))
    have hscan : scanLabel c.disk L =
        some (((b :: bs).map suffixNum).foldl max 0,
          (b :: bs).map (fun n => (⟨L, n⟩ : FsPath))) := by
      unfold scanLabel
      rw [← hm, hbs]
      simp only [List.isEmpty_cons, hfil]
      rfl
    set M : Nat := ((b :: bs).map suffixNum).foldl max 0 with hM
    refine ⟨{ c with lab := L, textBuf := "",
                     savedCount := (M : Int),
                     savedFiles := (b :: bs).map (fun n => (⟨L, n⟩ : FsPath)),
                     mode := Mode.inputCount },
            [Event.msgFoundExisting
              ((b :: bs).map (fun n => (⟨L, n⟩ : FsPath))).length L
              ((M : Int) + 1)],
            ?_, rfl, rfl, ?_, ?_, ?_⟩
    · simp [step, hp, handleKey, hmode, hkey, hne, hscan, keyEnter]
    · intro n hn
      dsimp only
      have hn2 : n ∈ pySorted matched := (mem_pySorted matched n).mpr hn
      rw [hbs] at hn2
      have hmem : suffixNum n ∈ (b :: bs).map suffixNum :=
        List.mem_map_of_mem _ hn2
      have hle : suffixNum n ≤ M := mem_le_foldl_max hmem 0
      exact_mod_cast hle
    · intro hmat
      rw [hmat] at hbs
      simp [pySorted] at hbs
    · intro hcon
      dsimp only
      rcases foldl_max_mem ((b :: bs).map suffixNum) 0 with h0 | hmem
      · have hb : b ∈ matched := (mem_pySorted matched b).mp (by rw [hbs]; simp)
        refine ⟨b, hb, ?_⟩
        have hble : suffixNum b ≤ M :=
          mem_le_foldl_max (List.mem_map_of_mem _ (by simp)) 0
        rw [← hM] at h0
        have hbM : suffixNum b = M := by omega
        exact_mod_cast hbM
      · rcases List.mem_map.mp hmem with ⟨n, hn2, hval⟩
        have hnm : n ∈ matched :=
          (mem_pySorted matched n).mp (by rw [hbs]; exact hn2)
        rw [← hM] at hval
        exact ⟨n, hnm, by exact_mod_cast hval⟩

/-- C2 witness: confirming label "g" with clips g_1 and g_2 on disk
resumes at index 2, the maximum suffix. -/
theorem c2_witness :
    ∃ c' evs, step exC2w ⟨0, [], [], 13, 0⟩ = StepResult.next c' evs ∧
      c'.mode = Mode.inputCount ∧ c'.lab = pyStrip exC2w.textBuf ∧
      (∀ n ∈ (dirListing exC2w.disk (pyStrip exC2w.textBuf)).filter
          (globMatch (pyStrip exC2w.textBuf)),
        (suffixNum n : Int) ≤ c'.savedCount) ∧
      ((dirListing exC2w.disk (pyStrip exC2w.textBuf)).filter
          (globMatch (pyStrip exC2w.textBuf)) = [] → c'.savedCount = 0) ∧
      ((dirListing exC2w.disk (pyStrip exC2w.textBuf)).filter
          (globMatch (pyStrip exC2w.textBuf)) ≠ [] →
        ∃ n ∈ (dirListing exC2w.disk (pyStrip exC2w.textBuf)).filter
            (globMatch (pyStrip exC2w.textBuf)),
          (suffixNum n : Int) = c'.savedCount) :=
  c2_resume_sets_max exC2w ⟨0, [], [], 13, 0⟩ rfl rfl (by decide) (by decide)

-- ── C3 ────────────────────────────────────────────────────────

/-- C3 fails as stated: undoing when the last recorded file is missing
removes the path but leaves savedCount at 1 instead of decrementing it
to 0. -/
theorem c3_counterexample :
    resultConfig (step exC3 ⟨0, [], [], 117, 0⟩) =
      some { exC3 with savedFiles := [] } ∧
    ({ exC3 with savedFiles := ([] : List FsPath) } : Config).savedCount ≠
      exC3.savedCount - 1 := by
  decide

/-- C3 (amended): when undo is triggered in Idle with the most recent
file missing on disk, an informational message is reported and the path
is removed from savedFilePaths, but savedCount is left unchanged. -/
theorem c3_undo_missing (c : Config) (i : Input) (last : FsPath)
    (hmode : c.mode = Mode.idle) (hkey : i.key = 117 ∨ i.key = 85)
    (hlast : c.savedFiles.getLast? = some last)
    (hmiss : fileExists c.disk last = false) :
    step c i = StepResult.next { c with savedFiles := c.savedFiles.dropLast }
      [Event.msgFileAlreadyGone last.name] := by
  have hp : phase1 c i = c := phase1_of_ne_recording i (by simp [hmode])
  rcases hkey with hkey | hkey <;>
    simp [step, hp, handleKey, hmode, hkey, hlast, hmiss, keySpace]

/-- C3 witness: the amended undo behaviour at a concrete session whose
only recorded file has vanished. -/
theorem c3_witness :
    step exC3 ⟨0, [], [], 117, 0⟩ =
      StepResult.next { exC3 with savedFiles := ([] : List FsPath) }
        [Event.msgFileAlreadyGone "L_1.mp4"] :=
  c3_undo_missing exC3 ⟨0, [], [], 117, 0⟩ ⟨"L", "L_1.mp4"⟩ rfl
    (Or.inl rfl) (by decide) (by decide)

end SLT

namespace SLT

-- ── C4 ────────────────────────────────────────────────────────

/-- C4: saving in Review (landing in Idle) followed immediately by an
undo restores savedCount and savedFilePaths to their pre-save values;
the saved file exists on disk at undo time because the save just wrote
it. -/
theorem c4_save_then_undo (c : Config) (i j : Input)
    (hmode : c.mode = Mode.review) (hi : i.key = 111 ∨ i.key = 79)
    (hj : j.key = 117 ∨ j.key = 85)
    (hlt : c.savedCount + 1 < c.targetCount) :
    ∃ c1 evs1 c2 evs2,
      step c i = StepResult.next c1 evs1 ∧ c1.mode = Mode.idle ∧
      step c1 j = StepResult.next c2 evs2 ∧
      c2.savedCount = c.savedCount ∧ c2.savedFiles = c.savedFiles := by
  have hp : phase1 c i = c := phase1_of_ne_recording i (by simp [hmode])
  have hnotle : ¬ (c.targetCount ≤ c.savedCount + 1) := by omega
  have h1 : step c i = StepResult.next
      { c with savedCount := c.savedCount + 1,
               disk := writeFile c.disk (savePath c) c.rawFrames,
               savedFiles := c.savedFiles ++ [savePath c],
               rawFrames := [], reviewFrame := none, mode := Mode.idle }
      [Event.msgSaved (savePath c).name (c.savedCount + 1) c.targetCount] := by
    rcases hi with hi | hi <;>
      simp [step, hp, handleKey, hmode, hi, keySpace, savePath, writeFile,
        hnotle]
  set c1 : Config :=
    { c with savedCount := c.savedCount + 1,
             disk := writeFile c.disk (savePath c) c.rawFrames,
             savedFiles := c.savedFiles ++ [savePath c],
             rawFrames := [], reviewFrame := none, mode := Mode.idle }
    with hc1
  have hp2 : phase1 c1 j = c1 := phase1_of_ne_recording j (by simp [hc1])
  have hlast : c1.savedFiles.getLast? = some (savePath c) := by
    simp [hc1]
  have hex : fileExists c1.disk (savePath c) = true := by
    simp [hc1, fileExists_writeFile]
  have h2 : step c1 j = StepResult.next
      { c1 with savedFiles := c1.savedFiles.dropLast,
                disk := removeFile c1.disk (savePath c),
                savedCount := c1.savedCount - 1 }
      [Event.msgUndone (savePath c).name (c1.savedCount - 1)
        c1.targetCount] := by
    rcases hj with hj | hj <;>
      simp [step, hp2, handleKey, hj, keySpace, hlast, hex, hc1]
  refine ⟨_, _, _, _, h1, rfl, h2, ?_, ?_⟩
  · simp [hc1]
  · simp [hc1]

/-- C4 witness: save then undo at a concrete review session restores the
pre-save bookkeeping. -/
theorem c4_witness :
    ∃ c1 evs1 c2 evs2,
      step exC4 ⟨0, [], [], 111, 0⟩ = StepResult.next c1 evs1 ∧
      c1.mode = Mode.idle ∧
      step c1 ⟨0, [], [], 117, 1⟩ = StepResult.next c2 evs2 ∧
      c2.savedCount = exC4.savedCount ∧ c2.savedFiles = exC4.savedFiles :=
  c4_save_then_undo exC4 ⟨0, [], [], 111, 0⟩ ⟨0, [], [], 117, 1⟩ rfl
    (Or.inl rfl) (Or.inl rfl) (by decide)

-- ── C5 ────────────────────────────────────────────────────────

/-- C5: detector output never influences the persisted state: two inputs
agreeing on frame, key and time yield observably equal results (same
disk, same messages, same bookkeeping; only the stored review display may
differ); the file written by a save holds exactly the pending raw frame
list, and while Recording that list extends by exactly the raw captured
frame. -/
theorem c5_overlay_never_persisted (c : Config) (i j : Input)
    (hcam : i.cam = j.cam) (hkey : i.key = j.key) (hnow : i.now = j.now) :
    sameObservable (step c i) (step c j) ∧
    (c.mode = Mode.review → (i.key = 111 ∨ i.key = 79) →
      ∃ c' evs, step c i = StepResult.next c' evs ∧
        readFile c'.disk (savePath c) = some c.rawFrames ∧
        c'.rawFrames = []) ∧
    (c.mode = Mode.recording →
      (phase1 c i).rawFrames = c.rawFrames ++ [i.cam]) := by
  refine ⟨?_, ?_, ?_⟩
  · obtain ⟨cam, d1, d2, k, t⟩ := i
    obtain ⟨cam2, e1, e2, k2, t2⟩ := j
    simp only at hcam hkey hnow
    subst hcam hkey hnow
    have hph : phase1 c ⟨cam, d1, d2, k, t⟩ =
        phase1 c ⟨cam, e1, e2, k, t⟩ := rfl
    unfold step
    rw [hph]
    exact handleKey_dets _ cam d1 d2 e1 e2 k t
  · intro hmode hk
    have hp : phase1 c i = c := phase1_of_ne_recording _ (by simp [hmode])
    by_cases hle : c.targetCount ≤ c.savedCount + 1
    · refine ⟨{ c with savedCount := c.savedCount + 1,
                       disk := writeFile c.disk (savePath c) c.rawFrames,
                       savedFiles := c.savedFiles ++ [savePath c],
                       rawFrames := [], reviewFrame := none,
                       textBuf := "", mode := Mode.inputLabel },
              [Event.msgSaved (savePath c).name (c.savedCount + 1)
                 c.targetCount,
               Event.msgAllDone c.targetCount c.lab],
              ?_, readFile_writeFile _ _ _, rfl⟩
      rcases hk with hk | hk <;>
        simp [step, hp, handleKey, hmode, hk, keySpace, savePath, hle]
    · refine ⟨{ c with savedCount := c.savedCount + 1,
                       disk := writeFile c.disk (savePath c) c.rawFrames,
                       savedFiles := c.savedFiles ++ [savePath c],
                       rawFrames := [], reviewFrame := none,
                       mode := Mode.idle },
              [Event.msgSaved (savePath c).name (c.savedCount + 1)
                 c.targetCount],
              ?_, readFile_writeFile _ _ _, rfl⟩
      rcases hk with hk | hk <;>
        simp [step, hp, handleKey, hmode, hk, keySpace, savePath, hle]
  · intro hmode
    simp [phase1, hmode]

/-- C5 witness: at a concrete review session, two inputs differing only
in detector output save identical file content, namely the two pending
raw frames. -/
theorem c5_witness :
    sameObservable (step exC5 ⟨9, [1], [2], 111, 0⟩)
      (step exC5 ⟨9, [3], [4], 111, 0⟩) ∧
    (exC5.mode = Mode.review → ((111 : Nat) = 111 ∨ (111 : Nat) = 79) →
      ∃ c' evs, step exC5 ⟨9, [1], [2], 111, 0⟩ = StepResult.next c' evs ∧
        readFile c'.disk (savePath exC5) = some exC5.rawFrames ∧
        c'.rawFrames = []) ∧
    (exC5.mode = Mode.recording →
      (phase1 exC5 ⟨9, [1], [2], 111, 0⟩).rawFrames =
        exC5.rawFrames ++ [9]) := by
  exact c5_overlay_never_persisted exC5 ⟨9, [1], [2], 111, 0⟩
    ⟨9, [3], [4], 111, 0⟩ rfl rfl rfl

-- ── C6 ────────────────────────────────────────────────────────

/-- C6: confirming the count entry succeeds exactly when the stripped
buffer is a nonempty digit string; the resulting targetCount is clamped
to at least 1, and an empty or non-digit confirm changes nothing. -/
theorem c6_count_confirm (c : Config) (i : Input)
    (hmode : c.mode = Mode.inputCount) (hkey : i.key = keyEnter) :
    (pyIsDigit (pyStrip c.textBuf) = true →
      step c i = StepResult.next
        { c with targetCount := clampedTarget c.textBuf,
                 textBuf := "", mode := Mode.idle }
        [Event.msgRecordingTarget c.lab c.savedCount
          (clampedTarget c.textBuf)]) ∧
    (pyIsDigit (pyStrip c.textBuf) = false →
      step c i = StepResult.next c []) ∧
    1 ≤ clampedTarget c.textBuf := by
  have hp : phase1 c i = c := phase1_of_ne_recording i (by simp [hmode])
  refine ⟨?_, ?_, ?_⟩
  · intro hdig
    simp [step, hp, handleKey, hmode, hkey, hdig, keyEnter, clampedTarget]
  · intro hdig
    simp [step, hp, handleKey, hmode, hkey, hdig, keyEnter, keyBackspace,
      keyDelete, keySpace]
  · unfold clampedTarget
    split
    · omega
    · omega

/-- C6 witness: confirming the buffer "0" clamps the target to 1 and
moves to Idle. -/
theorem c6_witness :
    step exC6 ⟨0, [], [], 13, 0⟩ = StepResult.next
      { exC6 with targetCount := clampedTarget "0",
                  textBuf := "", mode := Mode.idle }
      [Event.msgRecordingTarget "sign" 0 (clampedTarget "0")] ∧
    clampedTarget "0" = 1 :=
  ⟨(c6_count_confirm exC6 ⟨0, [], [], 13, 0⟩ rfl rfl).1 (by decide),
   by decide⟩

-- ── C7 ────────────────────────────────────────────────────────

/-- C7 fails as stated: the space character is printable but a space
typed in LabelEntry is not appended; the session is unchanged. -/
theorem c7_counterexample :
    resultConfig (step exC7 ⟨0, [], [], 32, 0⟩) = some exC7 ∧
    exC7.textBuf = "a" ∧ ("a" : String) ≠ "a " := by
  decide

/-- C7 (amended): in the text-entry modes every printable character
except space and the reserved quit keys q/Q is appended (non-digits
filtered out in CountEntry only), backspace or delete removes the last
buffer character, space is ignored, and q/Q quit. -/
theorem c7_text_entry (c : Config) (i : Input)
    (hmode : c.mode = Mode.inputLabel ∨ c.mode = Mode.inputCount) :
    (i.key = keyBackspace ∨ i.key = keyDelete →
      step c i = StepResult.next
        { c with textBuf := String.mk c.textBuf.data.dropLast } []) ∧
    (33 ≤ i.key → i.key < 127 → i.key ≠ 113 → i.key ≠ 81 →
      c.mode = Mode.inputLabel →
      step c i = StepResult.next
        { c with textBuf :=
            String.mk (c.textBuf.data ++ [Char.ofNat i.key]) } []) ∧
    (33 ≤ i.key → i.key < 127 → i.key ≠ 113 → i.key ≠ 81 →
      c.mode = Mode.inputCount → (Char.ofNat i.key).isDigit = true →
      step c i = StepResult.next
        { c with textBuf :=
            String.mk (c.textBuf.data ++ [Char.ofNat i.key]) } []) ∧
    (33 ≤ i.key → i.key < 127 → i.key ≠ 113 → i.key ≠ 81 →
      c.mode = Mode.inputCount → (Char.ofNat i.key).isDigit = false →
      step c i = StepResult.next c []) ∧
    (i.key = keySpace → step c i = StepResult.next c []) ∧
    ((i.key = 113 ∨ i.key = 81) → step c i = StepResult.quit c) := by
  have hnr : c.mode ≠ Mode.recording := by
    rcases hmode with h | h <;> simp [h]
  have hp : phase1 c i = c := phase1_of_ne_recording i hnr
  refine ⟨?_, ?_, ?_, ?_, ?_, ?_⟩
  · intro hkey
    rcases hkey with hkey | hkey <;> rcases hmode with hm | hm <;>
      simp [step, hp, handleKey, hm, hkey, keyEnter, keyBackspace, keyDelete,
        keySpace]
  · intro h1 h2 k1 k2 hm
    have k3 : i.key ≠ 13 := by omega
    have k4 : i.key ≠ 8 := by omega
    have k5 : i.key ≠ 127 := by omega
    have k6 : 32 ≤ i.key := by omega
    have k7 : i.key ≠ 32 := by omega
    simp [step, hp, handleKey, hm, k1, k2, k3, k4, k5, k6, k7, h2, keyEnter,
      keyBackspace, keyDelete, keySpace]
  · intro h1 h2 k1 k2 hm hd
    have k3 : i.key ≠ 13 := by omega
    have k4 : i.key ≠ 8 := by omega
    have k5 : i.key ≠ 127 := by omega
    have k6 : 32 ≤ i.key := by omega
    have k7 : i.key ≠ 32 := by omega
    simp [step, hp, handleKey, hm, k1, k2, k3, k4, k5, k6, k7, h2, hd,
      keyEnter, keyBackspace, keyDelete, keySpace]
  · intro h1 h2 k1 k2 hm hd
    have k3 : i.key ≠ 13 := by omega
    have k4 : i.key ≠ 8 := by omega
    have k5 : i.key ≠ 127 := by omega
    have k6 : 32 ≤ i.key := by omega
    have k7 : i.key ≠ 32 := by omega
    simp [step, hp, handleKey, hm, k1, k2, k3, k4, k5, k6, k7, h2, hd,
      keyEnter, keyBackspace, keyDelete, keySpace]
  · intro hkey
    rcases hmode with hm | hm <;>
      simp [step, hp, handleKey, hm, hkey, keyEnter, keyBackspace, keyDelete,
        keySpace]
  · intro hkey
    rcases hkey with hkey | hkey <;> simp [step, hp, handleKey, hkey]

/-- C7 witness: typing the letter b (key 98) in LabelEntry appends it to
the buffer "a", yielding "ab". -/
theorem c7_witness :
    step exC7 ⟨0, [], [], 98, 0⟩ =
      StepResult.next { exC7 with textBuf := "ab" } [] :=
  (c7_text_entry exC7 ⟨0, [], [], 98, 0⟩ (Or.inl rfl)).2.1 (by decide)
    (by decide) (by decide) (by decide) rfl

-- ── C8 ────────────────────────────────────────────────────────

/-- C8: the discard signal in Review clears the pending frame buffer and
the frozen display, moves to Idle, and changes nothing else: savedCount,
savedFilePaths and the disk are untouched and no file is written. -/
theorem c8_discard (c : Config) (i : Input)
    (hmode : c.mode = Mode.review) (hkey : i.key = keySpace) :
    step c i = StepResult.next
      { c with rawFrames := [], reviewFrame := none, mode := Mode.idle }
      [Event.msgClipDiscarded] := by
  have hp : phase1 c i = c := phase1_of_ne_recording i (by simp [hmode])
  simp [step, hp, handleKey, hmode, hkey, keySpace]

/-- C8 witness: discarding at a concrete review session. -/
theorem c8_witness :
    step exC8 ⟨9, [], [], 32, 4⟩ = StepResult.next
      { exC8 with rawFrames := [], reviewFrame := none, mode := Mode.idle }
      [Event.msgClipDiscarded] :=
  c8_discard exC8 ⟨9, [], [], 32, 4⟩ rfl rfl

-- ── C9 ────────────────────────────────────────────────────────

/-- C9: undo in Idle with no recorded paths leaves the entire session
state (disk included) unchanged and only prints an informational
message. -/
theorem c9_undo_empty (c : Config) (i : Input)
    (hmode : c.mode = Mode.idle) (hkey : i.key = 117 ∨ i.key = 85)
    (hempty : c.savedFiles = []) :
    step c i = StepResult.next c [Event.msgNothingToUndo] := by
  have hp : phase1 c i = c := phase1_of_ne_recording i (by simp [hmode])
  rcases hkey with hkey | hkey <;>
    simp [step, hp, handleKey, hmode, hkey, hempty, keySpace]

/-- C9 witness: undo with an empty stack at a concrete idle session. -/
theorem c9_witness :
    step exC9 ⟨1, [2], [], 85, 9⟩ =
      StepResult.next exC9 [Event.msgNothingToUndo] :=
  c9_undo_empty exC9 ⟨1, [2], [], 85, 9⟩ rfl (Or.inr rfl) rfl

-- ── C10 ───────────────────────────────────────────────────────

/-- C10: saving in Review with an empty pending frame buffer still
increments savedCount, writes the file `{label}_{savedCount}.mp4` with
zero frames, appends its path to savedFilePaths, and moves to LabelEntry
or Idle according to the target-count check; zero-frame clips are not
rejected. -/
theorem c10_save_empty (c : Config) (i : Input)
    (hmode : c.mode = Mode.review) (hkey : i.key = 111 ∨ i.key = 79)
    (hraw : c.rawFrames = []) :
    ∃ evs, step c i = StepResult.next
      { c with savedCount := c.savedCount + 1,
               disk := writeFile c.disk (savePath c) [],
               savedFiles := c.savedFiles ++ [savePath c],
               rawFrames := [], reviewFrame := none,
               mode := (if c.targetCount ≤ c.savedCount + 1 then
                          Mode.inputLabel
                        else Mode.idle),
               textBuf := (if c.targetCount ≤ c.savedCount + 1 then ""
                           else c.textBuf) }
      evs ∧
    readFile (writeFile c.disk (savePath c) []) (savePath c) = some [] := by
  have hp : phase1 c i = c := phase1_of_ne_recording i (by simp [hmode])
  refine ⟨(if c.targetCount ≤ c.savedCount + 1
           then [Event.msgSaved (savePath c).name (c.savedCount + 1)
                   c.targetCount,
                 Event.msgAllDone c.targetCount c.lab]
           else [Event.msgSaved (savePath c).name (c.savedCount + 1)
                   c.targetCount]),
          ?_, readFile_writeFile _ _ _⟩
  by_cases hle : c.targetCount ≤ c.savedCount + 1 <;>
    rcases hkey with hkey | hkey <;>
    simp [step, hp, handleKey, hmode, hkey, keySpace, savePath, hraw, hle]

/-- C10 witness: saving a zero-frame clip at a concrete review session
creates z_1.mp4 with empty content and increments the counter. -/
theorem c10_witness :
    ∃ evs, step exC10 ⟨0, [], [], 79, 0⟩ = StepResult.next
      { exC10 with savedCount := exC10.savedCount + 1,
                   disk := writeFile exC10.disk (savePath exC10) [],
                   savedFiles := exC10.savedFiles ++ [savePath exC10],
                   rawFrames := [], reviewFrame := none,
                   mode := (if exC10.targetCount ≤ exC10.savedCount + 1 then
                              Mode.inputLabel
                            else Mode.idle),
                   textBuf := (if exC10.targetCount ≤ exC10.savedCount + 1
                               then ""
                               else exC10.textBuf) }
      evs ∧
    readFile (writeFile exC10.disk (savePath exC10) []) (savePath exC10) =
      some [] :=
  c10_save_empty exC10 ⟨0, [], [], 79, 0⟩ rfl (Or.inr rfl) rfl

end SLT
